import Mathlib

/-!
# Credential pool of `services/ocr/space.go`

A shallow embedding of `getLeastUsedAPIKey`, `decrementUsageCount` and
`SpaceOCRText`, followed by the properties proved about them.

Conventions of the embedding

* `time.Time` values are integers (an instant on a totally ordered time line).
* Go `int` is the 64-bit signed integer of the amd64/arm64 targets: a value is
  an `Int`, and the one arithmetic operation of the file (`UsageCount - 1`)
  wraps modulo `2^64` as Go's does.
* Go `string`s are `String`s; `strings.HasPrefix` compares leading elements,
  so it is stated on the underlying lists.
* The documents of the collection conform to the schema of `APIKey`, so that
  `DataTo` (l.56, l.75) succeeds on them.
* The Firestore collection `OcrSpaceKey` is the list of its documents, each a
  document ID together with the four fields of `APIKey`, listed in the order in
  which the store itself enumerates documents that tie under a query's
  `OrderBy` keys.
* Everything outside the file (Firestore connectivity, the OCR service, the
  clock) is a field of `Env`; the calls made to the outside are recorded in a
  trace of `Event`s.
-/

namespace OCR

/-! ## Data model -/

/-- The struct `APIKey` (space.go, l.17-22), one field per `firestore` tag. -/
structure APIKey where
  Key : String
  UsageCount : Int
  CreatedAt : Int
  ExpiresAt : Int
deriving DecidableEq, Repr

/-- A document of the collection `OcrSpaceKey`: the document ID under which
Firestore stores it (what `Collection(..).Doc(id)` addresses) and its fields
(what `DataTo(&apiKey)` decodes). -/
structure Document where
  id : String
  data : APIKey
deriving DecidableEq, Repr

/-- The collection `OcrSpaceKey`. -/
abbrev Collection := List Document

/-- Error values returned by the functions of space.go, one constructor per
place that builds one; `external` is an error value produced outside the file
and handed on unchanged. -/
inductive Err where
  /-- Line 29: "failed to create Firestore client: %v". -/
  | createClient (cause : String)
  /-- Line 50: "no available API keys with usage count > 0". -/
  | noAvailableKeys
  /-- Line 52: "failed to fetch API key: %v". -/
  | fetchAPIKey (cause : String)
  /-- The status with which `tx.Get` answers for a document that is absent. -/
  | notFound
  /-- Line 70: "failed to fetch document for key %s: %v". -/
  | fetchDocument (key : String) (cause : Err)
  /-- Line 87: "failed to increment usage count in transaction: %v". -/
  | transaction (cause : Err)
  /-- An error value of a collaborator, passed on as it is (l.115). -/
  | external (cause : String)
deriving DecidableEq, Repr

/-- What lies outside space.go during one call. -/
structure Env where
  /-- The value of `time.Now()` read at l.39. -/
  now : Int
  /-- The error of `firestore.NewClient` (l.27), if it fails. -/
  clientErr : Option String
  /-- The error of `iter.Next()` (l.47) other than `iterator.Done`, if it fails. -/
  queryErr : Option String
  /-- The error of `client.RunTransaction` (l.66) when the transaction cannot be
  begun, so that its function is never run. -/
  txBeginErr : Option String
  /-- The error of `tx.Get` (l.68) when the read fails for a reason other than
  the absence of the document. -/
  txGetErr : Option String
  /-- The error of `client.RunTransaction` (l.66) when the commit of what its
  function wrote fails for good (conflict, abort). -/
  txCommitErr : Option String
  /-- The OCR service: `InitConfig(key, "eng", OCREngine2).ParseFromBase64(image)`
  followed by `JustText()` on success (l.112-113, l.123). -/
  ocr : String → String → Except String String

/-! ## `getLeastUsedAPIKey` (l.34-61) -/

/-- The two `Where` filters of the query (l.38-39). -/
def eligible (now : Int) (d : Document) : Bool :=
  decide (0 < d.data.UsageCount) && decide (now < d.data.ExpiresAt)

/-- The order of the two `OrderBy` clauses (l.40-41): `created_at` ascending,
then `usage_count` ascending. -/
def queryOrder (a b : Document) : Prop :=
  a.data.CreatedAt < b.data.CreatedAt ∨
    (a.data.CreatedAt = b.data.CreatedAt ∧ a.data.UsageCount ≤ b.data.UsageCount)

instance : DecidableRel queryOrder := fun a b => by
  unfold queryOrder
  exact inferInstance

instance : IsTotal Document queryOrder :=
  ⟨fun a b => by unfold queryOrder; omega⟩

instance : IsTrans Document queryOrder :=
  ⟨fun a b c => by unfold queryOrder; omega⟩

/-- The documents produced by the query of l.37-42: filtered, ordered (ties keep
the store's own order) and limited to one. -/
def queryDocuments (now : Int) (store : Collection) : List Document :=
  ((store.filter (eligible now)).insertionSort queryOrder).take 1

/-- The function `getLeastUsedAPIKey`. -/
def getLeastUsedAPIKey (env : Env) (store : Collection) : Except Err APIKey :=
  match env.queryErr with
  | some cause => .error (.fetchAPIKey cause)
  | none =>
    match queryDocuments env.now store with
    | [] => .error .noAvailableKeys
    | doc :: _ => .ok doc.data

/-! ## `decrementUsageCount` (l.63-90) -/

/-- Go's `int` arithmetic: the result of an operation reduced to the 64-bit
two's-complement range. -/
def wrapInt64 (i : Int) : Int :=
  (i + 2 ^ 63) % 2 ^ 64 - 2 ^ 63

/-- The document that `tx.Get(docRef)` reads for
`docRef = Collection("OcrSpaceKey").Doc(key)` (l.64, l.68): the one stored under
the ID `key`, if there is one. -/
def txGet (store : Collection) (key : String) : Option Document :=
  store.find? (fun d => decide (d.id = key))

/-- The document `d` with `usage_count` set to `v` and nothing else changed. -/
def withUsage (d : Document) (v : Int) : Document :=
  ⟨d.id, ⟨d.data.Key, v, d.data.CreatedAt, d.data.ExpiresAt⟩⟩

/-- The call `tx.Update(docRef, {usage_count: v})` (l.81-83): the document
stored under the ID `key` gets the field value `v`; nothing else is written. -/
def txUpdate : Collection → String → Int → Collection
  | [], _, _ => []
  | d :: rest, key, v =>
    if d.id = key then withUsage d v :: rest
    else d :: txUpdate rest key v

/-- The collection is keyed by identifier: every document is stored under the
ID equal to its `key` field and no two documents share an ID. This is the layout
`decrementUsageCount` is called on, its argument being the `key` field of the
document that the query returned (l.64, l.119). -/
def keyedByIdentifier (store : Collection) : Prop :=
  (∀ d ∈ store, d.id = d.data.Key) ∧ (store.map Document.id).Nodup

instance : DecidablePred keyedByIdentifier := fun store => by
  unfold keyedByIdentifier
  exact inferInstance

/-- The function `decrementUsageCount`: its error result and the collection
after it. A transaction that fails writes nothing. -/
def decrementUsageCount (env : Env) (store : Collection) (key : String) :
    Except Err Unit × Collection :=
  match env.txBeginErr with
  | some cause => (.error (.transaction (.external cause)), store)
  | none =>
    match env.txGetErr with
    | some cause => (.error (.transaction (.fetchDocument key (.external cause))), store)
    | none =>
      match txGet store key with
      | none => (.error (.transaction (.fetchDocument key .notFound)), store)
      | some docSnap =>
        let apiKey := docSnap.data
        let newUsageCount := wrapInt64 (apiKey.UsageCount - 1)
        match env.txCommitErr with
        | some cause => (.error (.transaction (.external cause)), store)
        | none => (.ok (), txUpdate store key newUsageCount)

/-! ## `SpaceOCRText` (l.93-124) -/

/-- The constant `prefix` of l.106. -/
def dataURIPrefix : String := "data:image/jpeg;base64,"

/-- Go's `strings.HasPrefix(s, prefix)`:
`len(s) >= len(prefix) && s[:len(prefix)] == prefix`. -/
def HasPrefix (s pre : String) : Bool :=
  decide (pre.data.length ≤ s.data.length) && (s.data.take pre.data.length == pre.data)

/-- The prefix-ensure step of l.106-109. -/
def normalizePayload (base64image : String) : String :=
  if !HasPrefix base64image dataURIPrefix then dataURIPrefix ++ base64image
  else base64image

/-- The function `getFirestoreClient` (l.25-32), as far as its result matters. -/
def getFirestoreClient (env : Env) : Except Err Unit :=
  match env.clientErr with
  | some cause => .error (.createClient cause)
  | none => .ok ()

deriving instance DecidableEq for Except

/-- A call that leaves space.go, with what it returned. -/
inductive Event where
  /-- The OCR service was called with this key and image (l.112-113). -/
  | ocrCall (key image : String) (res : Except String String)
  /-- The function `decrementUsageCount` was called with this key (l.119). -/
  | decrement (key : String) (res : Except Err Unit)
  /-- The line written by `log.Printf` (l.120). -/
  | logged (key : String) (err : Err)
deriving DecidableEq

/-- One run of `SpaceOCRText`: what the caller gets, the collection afterwards
and the calls made, in order. -/
structure Outcome where
  result : Except Err String
  store : Collection
  trace : List Event

/-- The function `SpaceOCRText`. The deferred `client.Close()` (l.99) changes
nothing of what is modelled. -/
def SpaceOCRText (env : Env) (store : Collection) (base64image : String) : Outcome :=
  match getFirestoreClient env with
  | .error err => ⟨.error err, store, []⟩
  | .ok () =>
    match getLeastUsedAPIKey env store with
    | .error err => ⟨.error err, store, []⟩
    | .ok apiKey =>
      let base64image := normalizePayload base64image
      match env.ocr apiKey.Key base64image with
      | .error err =>
        ⟨.error (.external err), store, [.ocrCall apiKey.Key base64image (.error err)]⟩
      | .ok text =>
        match decrementUsageCount env store apiKey.Key with
        | (.error err, store') =>
          ⟨.ok text, store',
            [.ocrCall apiKey.Key base64image (.ok text),
             .decrement apiKey.Key (.error err), .logged apiKey.Key err]⟩
        | (.ok (), store') =>
          ⟨.ok text, store',
            [.ocrCall apiKey.Key base64image (.ok text), .decrement apiKey.Key (.ok ())]⟩

/-! ## Concrete collections and environments for the instances below -/

/-- An environment at time 10 in which nothing fails and the OCR service
answers "hello". -/
def envOK : Env :=
  ⟨10, none, none, none, none, none, fun _ _ => .ok "hello"⟩

/-- The credential of scenario A: five uses left, created at 0, expiring at 3600. -/
def k1 : Document := ⟨"k1", ⟨"k1", 5, 0, 3600⟩⟩

/-- A younger credential with fewer uses left than `k1`. -/
def k2 : Document := ⟨"k2", ⟨"k2", 2, 7, 3600⟩⟩

/-- A credential as old as `k1` with fewer uses left. -/
def k3 : Document := ⟨"k3", ⟨"k3", 3, 0, 3600⟩⟩

/-- The credential holding the least 64-bit value as its usage count. -/
def kMin : Document := ⟨"kmin", ⟨"kmin", -9223372036854775808, 0, 3600⟩⟩

/-- An environment whose query fails for a reason other than exhaustion. -/
def envQueryDown : Env :=
  ⟨10, none, some "unavailable", none, none, none, fun _ _ => .ok "hello"⟩

/-- An environment whose OCR service fails, with an error that tells which key
and image it was called with. -/
def envOCRDown : Env :=
  ⟨10, none, none, none, none, none, fun key image => .error (key ++ ":" ++ image)⟩

/-- An environment whose transaction is aborted at commit. -/
def envTxDown : Env :=
  ⟨10, none, none, none, none, some "aborted", fun _ _ => .ok "hello"⟩

/-- An environment in which the read inside the transaction fails. -/
def envGetDown : Env :=
  ⟨10, none, none, none, some "deadline exceeded", none, fun _ _ => .ok "hello"⟩

/-- An environment whose OCR service answers with the key and image it was
called with. -/
def envEcho : Env :=
  ⟨10, none, none, none, none, none, fun key image => .ok (key ++ ":" ++ image)⟩

/-- A collection whose only document is stored under an ID that is not its
`key` field. -/
def autoID : Collection := [⟨"auto-id", ⟨"k1", 5, 0, 3600⟩⟩]

/-! # Theorems -/

/-! ## The query order -/

theorem queryOrder_refl (a : Document) : queryOrder a a := by
  unfold queryOrder; omega

/-- What the query's single result is: an eligible document of the collection
that comes first in the query order among all eligible ones. -/
theorem queryDocuments_cons {now : Int} {store : Collection} {doc : Document}
    {rest : List Document} (h : queryDocuments now store = doc :: rest) :
    rest = [] ∧ doc ∈ store ∧ eligible now doc = true ∧
      ∀ d ∈ store, eligible now d = true → queryOrder doc d := by
  unfold queryDocuments at h
  have hsorted := List.sorted_insertionSort queryOrder (store.filter (eligible now))
  have hmem : ∀ d, d ∈ (store.filter (eligible now)).insertionSort queryOrder ↔
      d ∈ store ∧ eligible now d = true := by
    intro d
    rw [List.mem_insertionSort, List.mem_filter]
  cases hl : (store.filter (eligible now)).insertionSort queryOrder with
  | nil => rw [hl] at h; simp at h
  | cons a l =>
    rw [hl] at h hsorted hmem
    simp only [List.take_succ_cons, List.take_zero, List.cons.injEq] at h
    obtain ⟨rfl, hrest⟩ := h
    have ha := (hmem a).1 (List.mem_cons_self _ _)
    refine ⟨hrest.symm, ha.1, ha.2, ?_⟩
    intro d hd hel
    rcases List.mem_cons.1 ((hmem d).2 ⟨hd, hel⟩) with rfl | hdl
    · exact queryOrder_refl _
    · exact List.rel_of_sorted_cons hsorted d hdl

/-- The query is empty exactly when no document is eligible. -/
theorem queryDocuments_eq_nil {now : Int} {store : Collection} :
    queryDocuments now store = [] ↔ ∀ d ∈ store, eligible now d = false := by
  unfold queryDocuments
  constructor
  · intro h d hd
    by_contra hne
    have hel : eligible now d = true := by simpa using hne
    have hmem : d ∈ (store.filter (eligible now)).insertionSort queryOrder := by
      rw [List.mem_insertionSort, List.mem_filter]; exact ⟨hd, hel⟩
    cases hl : (store.filter (eligible now)).insertionSort queryOrder with
    | nil => rw [hl] at hmem; simp at hmem
    | cons a l => rw [hl] at h; simp at h
  · intro h
    have hf : store.filter (eligible now) = [] := by
      rw [List.filter_eq_nil_iff]
      intro d hd
      simp [h d hd]
    rw [hf]; rfl

/-- A successful `getLeastUsedAPIKey` returns the data of the query's result. -/
theorem getLeastUsedAPIKey_ok {env : Env} {store : Collection} {apiKey : APIKey}
    (h : getLeastUsedAPIKey env store = .ok apiKey) :
    env.queryErr = none ∧ ∃ doc, queryDocuments env.now store = [doc] ∧ doc.data = apiKey := by
  unfold getLeastUsedAPIKey at h
  cases hq : env.queryErr with
  | some cause => rw [hq] at h; simp at h
  | none =>
    rw [hq] at h
    cases hd : queryDocuments env.now store with
    | nil => rw [hd] at h; simp at h
    | cons doc rest =>
      rw [hd] at h
      simp only [Except.ok.injEq] at h
      obtain ⟨hrest, -⟩ := queryDocuments_cons hd
      exact ⟨rfl, doc, by rw [hrest], h⟩

/-- When the query does not fail and some document is eligible,
`getLeastUsedAPIKey` returns a credential. -/
theorem getLeastUsedAPIKey_returns {env : Env} {store : Collection}
    (hq : env.queryErr = none) (hel : ∃ c ∈ store, eligible env.now c = true) :
    ∃ apiKey, getLeastUsedAPIKey env store = .ok apiKey := by
  unfold getLeastUsedAPIKey
  rw [hq]
  cases hd : queryDocuments env.now store with
  | nil =>
    obtain ⟨c, hc, hce⟩ := hel
    have := queryDocuments_eq_nil.1 hd c hc
    rw [hce] at this
    simp at this
  | cons doc rest => exact ⟨doc.data, rfl⟩

/-! ## Properties of `getLeastUsedAPIKey` -/

/-- C1: whenever `getLeastUsedAPIKey` returns a credential, that credential is
the data of a document of the collection, its usage count is positive and its
expiry lies after `now`; it is never one with usage count `<= 0` or expiry
`<= now`. -/
theorem getLeastUsedAPIKey_eligible (env : Env) (store : Collection) (apiKey : APIKey)
    (h : getLeastUsedAPIKey env store = .ok apiKey) :
    (0 < apiKey.UsageCount ∧ env.now < apiKey.ExpiresAt) ∧
      ¬ (apiKey.UsageCount ≤ 0 ∨ apiKey.ExpiresAt ≤ env.now) ∧
      ∃ d ∈ store, d.data = apiKey := by
  obtain ⟨-, doc, hq, rfl⟩ := getLeastUsedAPIKey_ok h
  obtain ⟨-, hmem, hel, -⟩ := queryDocuments_cons hq
  have hel2 : 0 < doc.data.UsageCount ∧ env.now < doc.data.ExpiresAt := by
    simpa [eligible] using hel
  exact ⟨hel2, by omega, doc, hmem, rfl⟩

/-- Witness of C1 on the collection `[k2, k1]`, where `k1` is returned. -/
theorem getLeastUsedAPIKey_eligible_witness :
    getLeastUsedAPIKey envOK [k2, k1] = .ok k1.data ∧
      ((0 < k1.data.UsageCount ∧ envOK.now < k1.data.ExpiresAt) ∧
        ¬ (k1.data.UsageCount ≤ 0 ∨ k1.data.ExpiresAt ≤ envOK.now) ∧
        ∃ d ∈ [k2, k1], d.data = k1.data) :=
  ⟨by decide, getLeastUsedAPIKey_eligible envOK [k2, k1] k1.data (by decide)⟩

/-- C2: a credential returned by `getLeastUsedAPIKey` is least among the
eligible ones in the order (created_at ascending, then usage_count ascending).
In particular, in a collection of two eligible credentials (listed either way)
the one created earlier is returned whatever their usage counts, and of two
created at the same instant the one with the lower usage count is returned. -/
theorem getLeastUsedAPIKey_least (env : Env) (store : Collection) (apiKey : APIKey)
    (h : getLeastUsedAPIKey env store = .ok apiKey) :
    (∀ d ∈ store, eligible env.now d = true →
        apiKey.CreatedAt < d.data.CreatedAt ∨
          (apiKey.CreatedAt = d.data.CreatedAt ∧ apiKey.UsageCount ≤ d.data.UsageCount)) ∧
      (∀ a b : Document, store = [a, b] ∨ store = [b, a] →
        eligible env.now a = true → eligible env.now b = true →
        a.data.CreatedAt < b.data.CreatedAt → apiKey = a.data) ∧
      (∀ a b : Document, store = [a, b] ∨ store = [b, a] →
        eligible env.now a = true → eligible env.now b = true →
        a.data.CreatedAt = b.data.CreatedAt → a.data.UsageCount < b.data.UsageCount →
        apiKey = a.data) := by
  obtain ⟨-, doc, hq, rfl⟩ := getLeastUsedAPIKey_ok h
  obtain ⟨-, hmem, -, hleast⟩ := queryDocuments_cons hq
  have two : ∀ a b : Document, store = [a, b] ∨ store = [b, a] → doc = a ∨ doc = b := by
    intro a b hs
    rcases hs with rfl | rfl <;> simp at hmem <;> tauto
  refine ⟨fun d hd hel => hleast d hd hel, ?_, ?_⟩
  · intro a b hs ha hb hlt
    rcases two a b hs with rfl | rfl
    · rfl
    · have := hleast a (by rcases hs with rfl | rfl <;> simp) ha
      unfold queryOrder at this
      omega
  · intro a b hs ha hb heq hlt
    rcases two a b hs with rfl | rfl
    · rfl
    · have := hleast a (by rcases hs with rfl | rfl <;> simp) ha
      unfold queryOrder at this
      omega

/-- Witness of C2. On `[k2, k1]` the older `k1` is returned although `k2` has
fewer uses left; on `[k1, k3]`, created at the same instant, `k3` with fewer
uses left is returned. -/
theorem getLeastUsedAPIKey_least_witness :
    (getLeastUsedAPIKey envOK [k2, k1] = .ok k1.data ∧
      k1.data.CreatedAt < k2.data.CreatedAt ∧ k2.data.UsageCount < k1.data.UsageCount ∧
      (∀ d ∈ [k2, k1], eligible envOK.now d = true →
        k1.data.CreatedAt < d.data.CreatedAt ∨
          (k1.data.CreatedAt = d.data.CreatedAt ∧ k1.data.UsageCount ≤ d.data.UsageCount)) ∧
      k1.data = k1.data) ∧
    (getLeastUsedAPIKey envOK [k1, k3] = .ok k3.data ∧
      k3.data.CreatedAt = k1.data.CreatedAt ∧ k3.data.UsageCount < k1.data.UsageCount ∧
      k3.data = k3.data) :=
  ⟨⟨by decide, by decide, by decide,
      (getLeastUsedAPIKey_least envOK [k2, k1] k1.data (by decide)).1,
      (getLeastUsedAPIKey_least envOK [k2, k1] k1.data (by decide)).2.1 k1 k2 (Or.inr rfl)
        (by decide) (by decide) (by decide)⟩,
    ⟨by decide, by decide, by decide,
      (getLeastUsedAPIKey_least envOK [k1, k3] k3.data (by decide)).2.2 k3 k1 (Or.inr rfl)
        (by decide) (by decide) (by decide) (by decide)⟩⟩

/-! ## Properties of `decrementUsageCount` -/

/-- Within the 64-bit range and above its least value, `v - 1` does not wrap. -/
theorem wrapInt64_pred {v : Int} (hlo : -2 ^ 63 < v) (hhi : v < 2 ^ 63) :
    wrapInt64 (v - 1) = v - 1 := by
  unfold wrapInt64
  norm_num at hlo hhi ⊢
  omega

theorem txGet_id {store : Collection} {key : String} {d : Document}
    (h : txGet store key = some d) : d.id = key := by
  unfold txGet at h
  simpa using List.find?_some h

/-- The write touches one place of the list: the first document stored under
`key`. -/
theorem txUpdate_split {store : Collection} {key : String} {d : Document} (v : Int)
    (h : txGet store key = some d) :
    ∃ before after, store = before ++ d :: after ∧ (∀ x ∈ before, x.id ≠ key) ∧
      txUpdate store key v = before ++ withUsage d v :: after := by
  induction store with
  | nil => simp [txGet] at h
  | cons x rest ih =>
    by_cases hx : x.id = key
    · have hxd : x = d := by
        simpa [txGet, List.find?_cons, hx] using h
      subst hxd
      exact ⟨[], rest, rfl, by simp, by simp [txUpdate, hx, withUsage]⟩
    · have hrest : txGet rest key = some d := by
        simpa [txGet, List.find?_cons, hx] using h
      obtain ⟨before, after, hs, hb, hu⟩ := ih hrest
      refine ⟨x :: before, after, by rw [hs]; rfl, ?_, ?_⟩
      · intro y hy
        rcases List.mem_cons.1 hy with rfl | hy
        · exact hx
        · exact hb y hy
      · simp [txUpdate, hx, hu]

theorem txGet_txUpdate_self {store : Collection} {key : String} {d : Document} (v : Int)
    (h : txGet store key = some d) :
    txGet (txUpdate store key v) key = some (withUsage d v) := by
  induction store with
  | nil => simp [txGet] at h
  | cons x rest ih =>
    by_cases hx : x.id = key
    · have hxd : x = d := by
        simpa [txGet, List.find?_cons, hx] using h
      subst hxd
      simp [txUpdate, hx, txGet, List.find?_cons, withUsage]
    · have hrest : txGet rest key = some d := by
        simpa [txGet, List.find?_cons, hx] using h
      have := ih hrest
      simpa [txUpdate, hx, txGet, List.find?_cons] using this

theorem txGet_txUpdate_other (store : Collection) {key id : String} (v : Int)
    (hne : id ≠ key) : txGet (txUpdate store key v) id = txGet store id := by
  induction store with
  | nil => rfl
  | cons x rest ih =>
    by_cases hx : x.id = key
    · have hxi : ¬ x.id = id := fun h => hne (h.symm.trans hx)
      simp [txUpdate, hx, txGet, List.find?_cons, hne.symm, withUsage]
    · by_cases hxi : x.id = id
      · simp [txUpdate, hx, txGet, List.find?_cons, hxi, hne]
      · simpa [txUpdate, hx, txGet, List.find?_cons, hxi] using ih

/-- What the write does to the collection, read back through `txGet` and as a
list. -/
theorem txUpdate_spec {store : Collection} {key : String} {d : Document} (v : Int)
    (h : txGet store key = some d) :
    txGet (txUpdate store key v) key = some (withUsage d v) ∧
      (∀ id, id ≠ key → txGet (txUpdate store key v) id = txGet store id) ∧
      ∃ before after, store = before ++ d :: after ∧
        txUpdate store key v = before ++ withUsage d v :: after := by
  refine ⟨txGet_txUpdate_self v h, fun id hne => txGet_txUpdate_other store v hne, ?_⟩
  obtain ⟨before, after, hs, -, hu⟩ := txUpdate_split v h
  exact ⟨before, after, hs, hu⟩

/-- A successful `decrementUsageCount` found the document and wrote the wrapped
`UsageCount - 1` into it. -/
theorem decrementUsageCount_ok {env : Env} {store store' : Collection} {key : String}
    (h : decrementUsageCount env store key = (.ok (), store')) :
    (env.txBeginErr = none ∧ env.txGetErr = none ∧ env.txCommitErr = none) ∧
      ∃ d, txGet store key = some d ∧
        store' = txUpdate store key (wrapInt64 (d.data.UsageCount - 1)) := by
  unfold decrementUsageCount at h
  cases ht : env.txBeginErr with
  | some cause => rw [ht] at h; simp at h
  | none =>
    rw [ht] at h
    cases hr : env.txGetErr with
    | some cause => rw [hr] at h; simp at h
    | none =>
      rw [hr] at h
      cases hg : txGet store key with
      | none => rw [hg] at h; simp at h
      | some d =>
        rw [hg] at h
        cases hc : env.txCommitErr with
        | some cause => rw [hc] at h; simp at h
        | none =>
          rw [hc] at h
          simp only [Prod.mk.injEq, true_and] at h
          exact ⟨⟨rfl, rfl, rfl⟩, d, rfl, h.symm⟩

/-- When nothing fails in the transaction and the document is there,
`decrementUsageCount` succeeds and writes the wrapped `UsageCount - 1`. -/
theorem decrementUsageCount_succeeds {env : Env} {store : Collection} {key : String}
    {d : Document} (hb : env.txBeginErr = none) (hr : env.txGetErr = none)
    (hc : env.txCommitErr = none) (hg : txGet store key = some d) :
    decrementUsageCount env store key =
      (.ok (), txUpdate store key (wrapInt64 (d.data.UsageCount - 1))) := by
  unfold decrementUsageCount
  rw [hb, hr, hg, hc]

/-- Every way the transaction can fail makes `decrementUsageCount` return an
error and leave the collection as it was. -/
theorem decrementUsageCount_fails {env : Env} {store : Collection} {key : String}
    (h : env.txBeginErr ≠ none ∨ env.txGetErr ≠ none ∨ txGet store key = none ∨
      env.txCommitErr ≠ none) :
    ∃ err, decrementUsageCount env store key = (.error err, store) := by
  unfold decrementUsageCount
  cases hb : env.txBeginErr with
  | some cause => exact ⟨_, rfl⟩
  | none =>
    cases hr : env.txGetErr with
    | some cause => exact ⟨_, rfl⟩
    | none =>
      cases hg : txGet store key with
      | none => exact ⟨_, rfl⟩
      | some d =>
        cases hc : env.txCommitErr with
        | some cause => exact ⟨_, rfl⟩
        | none =>
          rw [hb, hr, hg, hc] at h
          simp at h

/-- The four ways of `decrementUsageCount_fails` are the only ones in which
`decrementUsageCount` returns an error. -/
theorem decrementUsageCount_error_iff (env : Env) (store : Collection) (key : String) :
    (∃ err store', decrementUsageCount env store key = (.error err, store')) ↔
      (env.txBeginErr ≠ none ∨ env.txGetErr ≠ none ∨ txGet store key = none ∨
        env.txCommitErr ≠ none) := by
  constructor
  · rintro ⟨err, store', h⟩
    by_contra hno
    simp only [not_or, ne_eq, not_not] at hno
    obtain ⟨hb, hr, hg, hc⟩ := hno
    obtain ⟨d, hd⟩ := Option.ne_none_iff_exists'.1 hg
    rw [decrementUsageCount_succeeds hb hr hc hd] at h
    simp at h
  · intro h
    obtain ⟨err, he⟩ := decrementUsageCount_fails h
    exact ⟨err, store, he⟩

/-- A failed `decrementUsageCount` leaves the collection as it was. -/
theorem decrementUsageCount_error {env : Env} {store store' : Collection} {key : String}
    {err : Err} (h : decrementUsageCount env store key = (.error err, store')) :
    store' = store := by
  unfold decrementUsageCount at h
  cases ht : env.txBeginErr with
  | some cause => rw [ht] at h; simp at h; exact h.2.symm
  | none =>
    rw [ht] at h
    cases hr : env.txGetErr with
    | some cause => rw [hr] at h; simp at h; exact h.2.symm
    | none =>
      rw [hr] at h
      cases hg : txGet store key with
      | none => rw [hg] at h; simp at h; exact h.2.symm
      | some d =>
        rw [hg] at h
        cases hc : env.txCommitErr with
        | some cause => rw [hc] at h; simp at h; exact h.2.symm
        | none => rw [hc] at h; simp at h

/-- C3, as amended: a successful `decrementUsageCount key` on a collection whose
document under `key` has a usage count `v` in the 64-bit range other than its
least value leaves that document with usage count exactly `v - 1` (for `v = 0`
that is `-1`: no clamping) and with its ID, key, creation and expiry time as
they were; every other document and the order of the collection are
unchanged. -/
theorem decrementUsageCount_exact (env : Env) (store store' : Collection) (key : String)
    (d : Document) (hget : txGet store key = some d)
    (hlo : -2 ^ 63 < d.data.UsageCount) (hhi : d.data.UsageCount < 2 ^ 63)
    (hok : decrementUsageCount env store key = (.ok (), store')) :
    txGet store' key =
        some ⟨d.id, ⟨d.data.Key, d.data.UsageCount - 1, d.data.CreatedAt, d.data.ExpiresAt⟩⟩ ∧
      (∀ id, id ≠ key → txGet store' id = txGet store id) ∧
      ∃ before after, store = before ++ d :: after ∧
        store' = before ++
          ⟨d.id, ⟨d.data.Key, d.data.UsageCount - 1, d.data.CreatedAt, d.data.ExpiresAt⟩⟩ ::
            after := by
  obtain ⟨-, d0, hget0, rfl⟩ := decrementUsageCount_ok hok
  rw [hget] at hget0
  obtain rfl : d = d0 := by simpa using hget0
  rw [wrapInt64_pred hlo hhi]
  exact txUpdate_spec (d.data.UsageCount - 1) hget

/-- Witness of C3 at usage count 0, which becomes -1, in a collection of two. -/
theorem decrementUsageCount_exact_witness :
    txGet [k2, ⟨"k0", ⟨"k0", 0, 0, 3600⟩⟩] "k0" = some ⟨"k0", ⟨"k0", 0, 0, 3600⟩⟩ ∧
      decrementUsageCount envOK [k2, ⟨"k0", ⟨"k0", 0, 0, 3600⟩⟩] "k0" =
        (.ok (), [k2, ⟨"k0", ⟨"k0", -1, 0, 3600⟩⟩]) ∧
      txGet [k2, ⟨"k0", ⟨"k0", -1, 0, 3600⟩⟩] "k0" = some ⟨"k0", ⟨"k0", 0 - 1, 0, 3600⟩⟩ :=
  ⟨by decide, by decide,
    (decrementUsageCount_exact envOK [k2, ⟨"k0", ⟨"k0", 0, 0, 3600⟩⟩]
      [k2, ⟨"k0", ⟨"k0", -1, 0, 3600⟩⟩] "k0" ⟨"k0", ⟨"k0", 0, 0, 3600⟩⟩
      (by decide) (by decide) (by decide) (by decide)).1⟩

/-- C3 fails as stated at the least 64-bit value: the decrement succeeds and
the stored usage count becomes `2^63 - 1`, not `v - 1`. -/
theorem decrementUsageCount_wraps_at_min :
    txGet [kMin] "kmin" = some kMin ∧
      decrementUsageCount envOK [kMin] "kmin" =
        (.ok (), [⟨"kmin", ⟨"kmin", 9223372036854775807, 0, 3600⟩⟩]) ∧
      (9223372036854775807 : Int) ≠ kMin.data.UsageCount - 1 := by
  decide

/-! ## Properties of `SpaceOCRText` -/

/-- The five ways a run of `SpaceOCRText` can go. -/
theorem SpaceOCRText_cases (env : Env) (store : Collection) (payload : String) :
    (∃ cause, env.clientErr = some cause ∧
        SpaceOCRText env store payload = ⟨.error (.createClient cause), store, []⟩) ∨
      (env.clientErr = none ∧ ∃ err, getLeastUsedAPIKey env store = .error err ∧
        SpaceOCRText env store payload = ⟨.error err, store, []⟩) ∨
      (env.clientErr = none ∧ ∃ apiKey err, getLeastUsedAPIKey env store = .ok apiKey ∧
        env.ocr apiKey.Key (normalizePayload payload) = .error err ∧
        SpaceOCRText env store payload =
          ⟨.error (.external err), store,
            [.ocrCall apiKey.Key (normalizePayload payload) (.error err)]⟩) ∨
      (env.clientErr = none ∧ ∃ apiKey text err store',
        getLeastUsedAPIKey env store = .ok apiKey ∧
        env.ocr apiKey.Key (normalizePayload payload) = .ok text ∧
        decrementUsageCount env store apiKey.Key = (.error err, store') ∧
        SpaceOCRText env store payload =
          ⟨.ok text, store',
            [.ocrCall apiKey.Key (normalizePayload payload) (.ok text),
             .decrement apiKey.Key (.error err), .logged apiKey.Key err]⟩) ∨
      (env.clientErr = none ∧ ∃ apiKey text store',
        getLeastUsedAPIKey env store = .ok apiKey ∧
        env.ocr apiKey.Key (normalizePayload payload) = .ok text ∧
        decrementUsageCount env store apiKey.Key = (.ok (), store') ∧
        SpaceOCRText env store payload =
          ⟨.ok text, store',
            [.ocrCall apiKey.Key (normalizePayload payload) (.ok text),
             .decrement apiKey.Key (.ok ())]⟩) := by
  unfold SpaceOCRText getFirestoreClient
  cases hc : env.clientErr with
  | some cause => exact Or.inl ⟨cause, rfl, rfl⟩
  | none =>
    right
    cases hk : getLeastUsedAPIKey env store with
    | error err => exact Or.inl ⟨rfl, err, rfl, rfl⟩
    | ok apiKey =>
      right
      cases ho : env.ocr apiKey.Key (normalizePayload payload) with
      | error err =>
        refine Or.inl ⟨rfl, apiKey, err, rfl, ho, ?_⟩
        simp only [ho]
      | ok text =>
        right
        cases hd : decrementUsageCount env store apiKey.Key with
        | mk res store' =>
          cases res with
          | error err =>
            refine Or.inl ⟨rfl, apiKey, text, err, store', rfl, ho, hd, ?_⟩
            simp only [ho, hd]
          | ok u =>
            refine Or.inr ⟨rfl, apiKey, text, store', rfl, ho, hd, ?_⟩
            simp only [ho, hd]

/-- When the client is created, the query does not fail and some document is
eligible, `SpaceOCRText` calls the OCR service, once and first, with the
selected key and the normalised payload. -/
theorem SpaceOCRText_calls_ocr {env : Env} {store : Collection} (payload : String)
    (hc : env.clientErr = none) (hq : env.queryErr = none)
    (hel : ∃ c ∈ store, eligible env.now c = true) :
    ∃ apiKey rest, getLeastUsedAPIKey env store = .ok apiKey ∧
      (SpaceOCRText env store payload).trace =
        .ocrCall apiKey.Key (normalizePayload payload)
          (env.ocr apiKey.Key (normalizePayload payload)) :: rest ∧
      ∀ key image res, Event.ocrCall key image res ∉ rest := by
  obtain ⟨apiKey, hk⟩ := getLeastUsedAPIKey_returns hq hel
  rcases SpaceOCRText_cases env store payload with
    ⟨cause, hc', -⟩ | ⟨-, err, hk', -⟩ | ⟨-, apiKey', err, hk', hocr, ho⟩ |
    ⟨-, apiKey', text, err, store', hk', hocr, -, ho⟩ |
    ⟨-, apiKey', text, store', hk', hocr, -, ho⟩
  · rw [hc] at hc'; simp at hc'
  · rw [hk] at hk'; simp at hk'
  · rw [hk] at hk'
    obtain rfl : apiKey = apiKey' := by simpa using hk'
    exact ⟨apiKey, [], hk, by rw [ho, hocr], by simp⟩
  · rw [hk] at hk'
    obtain rfl : apiKey = apiKey' := by simpa using hk'
    exact ⟨apiKey, _, hk, by rw [ho, hocr], by simp⟩
  · rw [hk] at hk'
    obtain rfl : apiKey = apiKey' := by simpa using hk'
    exact ⟨apiKey, _, hk, by rw [ho, hocr], by simp⟩

/-- In a collection keyed by identifier the `key` field of a document addresses
that very document. -/
theorem txGet_of_keyed {store : Collection} (hk : keyedByIdentifier store) {d : Document}
    (hd : d ∈ store) : txGet store d.data.Key = some d := by
  obtain ⟨hid, hnodup⟩ := hk
  rw [← hid d hd]
  clear hid
  induction store with
  | nil => simp at hd
  | cons x rest ih =>
    rw [List.map_cons, List.nodup_cons] at hnodup
    rcases List.mem_cons.1 hd with rfl | hrest
    · simp [txGet, List.find?_cons]
    · have hne : ¬ x.id = d.id := fun h =>
        hnodup.1 (h ▸ List.mem_map_of_mem Document.id hrest)
      have := ih hrest hnodup.2
      simpa [txGet, List.find?_cons, hne] using this

/-- The run of `SpaceOCRText` once a client and a credential are there and the
OCR service has failed. -/
theorem SpaceOCRText_of_ocr_error {env : Env} {store : Collection} {payload e : String}
    {apiKey : APIKey} (hc : env.clientErr = none)
    (hk : getLeastUsedAPIKey env store = .ok apiKey)
    (ho : env.ocr apiKey.Key (normalizePayload payload) = .error e) :
    SpaceOCRText env store payload =
      ⟨.error (.external e), store,
        [.ocrCall apiKey.Key (normalizePayload payload) (.error e)]⟩ := by
  unfold SpaceOCRText getFirestoreClient
  rw [hc]
  simp only [hk, ho]

/-- The run of `SpaceOCRText` once the OCR service has answered and
`decrementUsageCount` has failed. -/
theorem SpaceOCRText_of_decrement_error {env : Env} {store store' : Collection}
    {payload t : String} {apiKey : APIKey} {err : Err} (hc : env.clientErr = none)
    (hk : getLeastUsedAPIKey env store = .ok apiKey)
    (ho : env.ocr apiKey.Key (normalizePayload payload) = .ok t)
    (hd : decrementUsageCount env store apiKey.Key = (.error err, store')) :
    SpaceOCRText env store payload =
      ⟨.ok t, store',
        [.ocrCall apiKey.Key (normalizePayload payload) (.ok t),
         .decrement apiKey.Key (.error err), .logged apiKey.Key err]⟩ := by
  unfold SpaceOCRText getFirestoreClient
  rw [hc]
  simp only [hk, ho, hd]

/-- The run of `SpaceOCRText` once the OCR service has answered and
`decrementUsageCount` has succeeded. -/
theorem SpaceOCRText_of_decrement_ok {env : Env} {store store' : Collection}
    {payload t : String} {apiKey : APIKey} (hc : env.clientErr = none)
    (hk : getLeastUsedAPIKey env store = .ok apiKey)
    (ho : env.ocr apiKey.Key (normalizePayload payload) = .ok t)
    (hd : decrementUsageCount env store apiKey.Key = (.ok (), store')) :
    SpaceOCRText env store payload =
      ⟨.ok t, store',
        [.ocrCall apiKey.Key (normalizePayload payload) (.ok t),
         .decrement apiKey.Key (.ok ())]⟩ := by
  unfold SpaceOCRText getFirestoreClient
  rw [hc]
  simp only [hk, ho, hd]

/-- C4: on a collection keyed by identifier (usage counts being Go ints), when
the client and the query work, some credential is eligible, the OCR service
answers the call made with the selected key and the normalised payload with
text `t`, and nothing fails in the transaction, then `SpaceOCRText` returns
exactly `t` with no error; the OCR service and `decrementUsageCount` are each
called once; and afterwards the selected document `d` has its previous usage
count minus one while every other document is unchanged. -/
theorem SpaceOCRText_success (env : Env) (store : Collection) (payload t : String)
    (hkeyed : keyedByIdentifier store)
    (hint : ∀ c ∈ store, c.data.UsageCount < 2 ^ 63)
    (hc : env.clientErr = none) (hq : env.queryErr = none)
    (hel : ∃ c ∈ store, eligible env.now c = true)
    (hocr : ∀ apiKey, getLeastUsedAPIKey env store = .ok apiKey →
      env.ocr apiKey.Key (normalizePayload payload) = .ok t)
    (htx : env.txBeginErr = none ∧ env.txGetErr = none ∧ env.txCommitErr = none) :
    (SpaceOCRText env store payload).result = .ok t ∧
      ∃ d, queryDocuments env.now store = [d] ∧
        (SpaceOCRText env store payload).trace =
          [.ocrCall d.data.Key (normalizePayload payload) (.ok t),
           .decrement d.data.Key (.ok ())] ∧
        txGet store d.id = some d ∧
        txGet (SpaceOCRText env store payload).store d.id =
          some ⟨d.id, ⟨d.data.Key, d.data.UsageCount - 1, d.data.CreatedAt,
            d.data.ExpiresAt⟩⟩ ∧
        (∀ id, id ≠ d.id →
          txGet (SpaceOCRText env store payload).store id = txGet store id) ∧
        ∃ before after, store = before ++ d :: after ∧
          (SpaceOCRText env store payload).store = before ++
            ⟨d.id, ⟨d.data.Key, d.data.UsageCount - 1, d.data.CreatedAt,
              d.data.ExpiresAt⟩⟩ :: after := by
  obtain ⟨apiKey, hk⟩ := getLeastUsedAPIKey_returns hq hel
  have ho := hocr apiKey hk
  obtain ⟨-, d, hsel, rfl⟩ := getLeastUsedAPIKey_ok hk
  obtain ⟨-, hmem, hel', -⟩ := queryDocuments_cons hsel
  have hpos : 0 < d.data.UsageCount ∧ env.now < d.data.ExpiresAt := by
    simpa [eligible] using hel'
  have hself : txGet store d.data.Key = some d := txGet_of_keyed hkeyed hmem
  have hid : d.id = d.data.Key := hkeyed.1 d hmem
  have hd := decrementUsageCount_succeeds htx.1 htx.2.1 htx.2.2 hself
  rw [wrapInt64_pred (by omega) (hint d hmem)] at hd
  rw [SpaceOCRText_of_decrement_ok hc hk ho hd]
  have hspec := txUpdate_spec (d.data.UsageCount - 1) hself
  refine ⟨rfl, d, hsel, rfl, ?_⟩
  simpa only [hid, withUsage] using And.intro hself hspec

/-- Witness of C4, scenario A, with an OCR service that answers with the key
and the image it was called with: that answer is returned and `k1` goes from 5
to 4. -/
theorem SpaceOCRText_success_witness :
    (SpaceOCRText envEcho [k1] "abc").result = .ok "k1:data:image/jpeg;base64,abc" ∧
      ∃ d, queryDocuments envEcho.now [k1] = [d] ∧
        (SpaceOCRText envEcho [k1] "abc").trace =
          [.ocrCall d.data.Key (normalizePayload "abc") (.ok "k1:data:image/jpeg;base64,abc"),
           .decrement d.data.Key (.ok ())] ∧
        txGet [k1] d.id = some d ∧
        txGet (SpaceOCRText envEcho [k1] "abc").store d.id =
          some ⟨d.id, ⟨d.data.Key, d.data.UsageCount - 1, d.data.CreatedAt,
            d.data.ExpiresAt⟩⟩ ∧
        (∀ id, id ≠ d.id →
          txGet (SpaceOCRText envEcho [k1] "abc").store id = txGet [k1] id) ∧
        ∃ before after, [k1] = before ++ d :: after ∧
          (SpaceOCRText envEcho [k1] "abc").store = before ++
            ⟨d.id, ⟨d.data.Key, d.data.UsageCount - 1, d.data.CreatedAt,
              d.data.ExpiresAt⟩⟩ :: after :=
  SpaceOCRText_success envEcho [k1] "abc" "k1:data:image/jpeg;base64,abc"
    (by decide) (by decide) rfl rfl ⟨k1, by decide, by decide⟩
    (fun apiKey h => by
      have h1 : getLeastUsedAPIKey envEcho [k1] = .ok k1.data := by decide
      rw [h1] at h
      cases h
      decide)
    ⟨rfl, rfl, rfl⟩

/-- C5: when the client and the query work, some credential is eligible and the
OCR service answers the call made with the selected key and the normalised
payload with an error `e`, `SpaceOCRText` fails with that very error, its only
outside call is that one (so `decrementUsageCount` is not called), and the
collection, hence every usage count, is as it was. -/
theorem SpaceOCRText_ocr_error (env : Env) (store : Collection) (payload e : String)
    (hc : env.clientErr = none) (hq : env.queryErr = none)
    (hel : ∃ c ∈ store, eligible env.now c = true)
    (hocr : ∀ apiKey, getLeastUsedAPIKey env store = .ok apiKey →
      env.ocr apiKey.Key (normalizePayload payload) = .error e) :
    (SpaceOCRText env store payload).result = .error (.external e) ∧
      (∀ k res, Event.decrement k res ∉ (SpaceOCRText env store payload).trace) ∧
      (SpaceOCRText env store payload).store = store ∧
      ∃ apiKey, getLeastUsedAPIKey env store = .ok apiKey ∧
        (SpaceOCRText env store payload).trace =
          [.ocrCall apiKey.Key (normalizePayload payload) (.error e)] := by
  obtain ⟨apiKey, hk⟩ := getLeastUsedAPIKey_returns hq hel
  rw [SpaceOCRText_of_ocr_error hc hk (hocr apiKey hk)]
  exact ⟨rfl, by simp, rfl, apiKey, hk, rfl⟩

/-- Witness of C5, scenario C, with an OCR service whose error tells the key
and the image it was called with: that error is returned and `k1` keeps 5. -/
theorem SpaceOCRText_ocr_error_witness :
    (SpaceOCRText envOCRDown [k1] "abc").result =
        .error (.external "k1:data:image/jpeg;base64,abc") ∧
      (∀ k res, Event.decrement k res ∉ (SpaceOCRText envOCRDown [k1] "abc").trace) ∧
      (SpaceOCRText envOCRDown [k1] "abc").store = [k1] ∧
      ∃ apiKey, getLeastUsedAPIKey envOCRDown [k1] = .ok apiKey ∧
        (SpaceOCRText envOCRDown [k1] "abc").trace =
          [.ocrCall apiKey.Key (normalizePayload "abc")
            (.error "k1:data:image/jpeg;base64,abc")] :=
  SpaceOCRText_ocr_error envOCRDown [k1] "abc" "k1:data:image/jpeg;base64,abc" rfl rfl
    ⟨k1, by decide, by decide⟩
    (fun apiKey h => by
      have h1 : getLeastUsedAPIKey envOCRDown [k1] = .ok k1.data := by decide
      rw [h1] at h
      cases h
      decide)

/-- C6, as amended: on a collection without an eligible credential
`SpaceOCRText` always fails, never calls the OCR service (it makes no outside
call at all) and leaves the collection unchanged; the error is the
no-available-key error whenever the Firestore client is created and the query
itself does not fail. -/
theorem SpaceOCRText_no_eligible (env : Env) (store : Collection) (payload : String)
    (hnone : ∀ d ∈ store, eligible env.now d = false) :
    (∃ err, (SpaceOCRText env store payload).result = .error err) ∧
      (env.clientErr = none → env.queryErr = none →
        (SpaceOCRText env store payload).result = .error .noAvailableKeys) ∧
      (∀ key image res,
        Event.ocrCall key image res ∉ (SpaceOCRText env store payload).trace) ∧
      (SpaceOCRText env store payload).trace = [] ∧
      (SpaceOCRText env store payload).store = store := by
  have hq : queryDocuments env.now store = [] := queryDocuments_eq_nil.2 hnone
  have hget : ∀ apiKey, getLeastUsedAPIKey env store ≠ .ok apiKey := by
    intro apiKey h
    obtain ⟨-, doc, hdoc, -⟩ := getLeastUsedAPIKey_ok h
    rw [hq] at hdoc
    simp at hdoc
  rcases SpaceOCRText_cases env store payload with
    ⟨cause, hc, ho⟩ | ⟨-, err, hk, ho⟩ | ⟨-, apiKey, err, hk, -, ho⟩ |
    ⟨-, apiKey, text, err, store', hk, -, -, ho⟩ | ⟨-, apiKey, text, store', hk, -, -, ho⟩
  · rw [ho]
    refine ⟨⟨_, rfl⟩, ?_, by simp, rfl, rfl⟩
    intro hc'
    rw [hc] at hc'
    simp at hc'
  · rw [ho]
    refine ⟨⟨_, rfl⟩, ?_, by simp, rfl, rfl⟩
    intro _ hqe
    unfold getLeastUsedAPIKey at hk
    rw [hqe, hq] at hk
    simp only [Except.error.injEq] at hk
    rw [← hk]
  · exact absurd hk (hget apiKey)
  · exact absurd hk (hget apiKey)
  · exact absurd hk (hget apiKey)

/-- Witness of C6, scenario B: a single credential with no use left. -/
theorem SpaceOCRText_no_eligible_witness :
    (SpaceOCRText envOK [⟨"k0", ⟨"k0", 0, 0, 3600⟩⟩] "abc").result = .error .noAvailableKeys ∧
      (SpaceOCRText envOK [⟨"k0", ⟨"k0", 0, 0, 3600⟩⟩] "abc").trace = [] ∧
      (SpaceOCRText envOK [⟨"k0", ⟨"k0", 0, 0, 3600⟩⟩] "abc").store =
        [⟨"k0", ⟨"k0", 0, 0, 3600⟩⟩] :=
  have h := SpaceOCRText_no_eligible envOK [⟨"k0", ⟨"k0", 0, 0, 3600⟩⟩] "abc" (by decide)
  ⟨h.2.1 rfl rfl, h.2.2.2.1, h.2.2.2.2⟩

/-- C6 fails as stated when the query itself fails: on a collection whose only
credential has no use left, the error returned is the failed-to-fetch error of
l.52, not the no-available-key error of l.50. -/
theorem SpaceOCRText_no_eligible_query_failure :
    (∀ d ∈ [(⟨"k0", ⟨"k0", 0, 0, 3600⟩⟩ : Document)], eligible envQueryDown.now d = false) ∧
      (SpaceOCRText envQueryDown [⟨"k0", ⟨"k0", 0, 0, 3600⟩⟩] "abc").result =
        .error (.fetchAPIKey "unavailable") ∧
      (SpaceOCRText envQueryDown [⟨"k0", ⟨"k0", 0, 0, 3600⟩⟩] "abc").result ≠
        .error .noAvailableKeys := by
  decide

/-- C7: when the client and the query work, some credential is eligible, the
OCR service answers the call made with the selected key and the normalised
payload with text `t`, and the transaction of `decrementUsageCount` then fails
for whatever reason (it cannot be begun, its read fails, the document is not
found, or its commit fails), `SpaceOCRText` still returns exactly `t` with no
error; the error of `decrementUsageCount` goes to the log only, and the
collection is unchanged. -/
theorem SpaceOCRText_decrement_failure (env : Env) (store : Collection) (payload t : String)
    (hc : env.clientErr = none) (hq : env.queryErr = none)
    (hel : ∃ c ∈ store, eligible env.now c = true)
    (hocr : ∀ apiKey, getLeastUsedAPIKey env store = .ok apiKey →
      env.ocr apiKey.Key (normalizePayload payload) = .ok t)
    (hfail : ∀ apiKey, getLeastUsedAPIKey env store = .ok apiKey →
      env.txBeginErr ≠ none ∨ env.txGetErr ≠ none ∨ txGet store apiKey.Key = none ∨
        env.txCommitErr ≠ none) :
    (SpaceOCRText env store payload).result = .ok t ∧
      (SpaceOCRText env store payload).store = store ∧
      ∃ apiKey err, getLeastUsedAPIKey env store = .ok apiKey ∧
        decrementUsageCount env store apiKey.Key = (.error err, store) ∧
        (SpaceOCRText env store payload).trace =
          [.ocrCall apiKey.Key (normalizePayload payload) (.ok t),
           .decrement apiKey.Key (.error err), .logged apiKey.Key err] := by
  obtain ⟨apiKey, hk⟩ := getLeastUsedAPIKey_returns hq hel
  obtain ⟨err, hd⟩ := decrementUsageCount_fails (hfail apiKey hk)
  rw [SpaceOCRText_of_decrement_error hc hk (hocr apiKey hk) hd]
  exact ⟨rfl, rfl, apiKey, err, hk, hd, rfl⟩

/-- Witness of C7, scenario D, three times: a read that fails inside the
transaction although the document of `k1` is there, a commit that is aborted,
and a document that is not found under the selected key. -/
theorem SpaceOCRText_decrement_failure_witness :
    ((SpaceOCRText envGetDown [k1] "abc").result = .ok "hello" ∧
      (SpaceOCRText envGetDown [k1] "abc").store = [k1] ∧
      ∃ apiKey err, getLeastUsedAPIKey envGetDown [k1] = .ok apiKey ∧
        decrementUsageCount envGetDown [k1] apiKey.Key = (.error err, [k1]) ∧
        (SpaceOCRText envGetDown [k1] "abc").trace =
          [.ocrCall apiKey.Key (normalizePayload "abc") (.ok "hello"),
           .decrement apiKey.Key (.error err), .logged apiKey.Key err]) ∧
    ((SpaceOCRText envTxDown [k1] "abc").result = .ok "hello" ∧
      (SpaceOCRText envTxDown [k1] "abc").store = [k1]) ∧
    ((SpaceOCRText envEcho autoID "abc").result = .ok "k1:data:image/jpeg;base64,abc" ∧
      (SpaceOCRText envEcho autoID "abc").store = autoID) :=
  have h1 := SpaceOCRText_decrement_failure envGetDown [k1] "abc" "hello" rfl rfl
    ⟨k1, by decide, by decide⟩ (fun _ _ => rfl)
    (fun _ _ => Or.inr (Or.inl (by decide)))
  have h2 := SpaceOCRText_decrement_failure envTxDown [k1] "abc" "hello" rfl rfl
    ⟨k1, by decide, by decide⟩ (fun _ _ => rfl)
    (fun _ _ => Or.inr (Or.inr (Or.inr (by decide))))
  have hsel : getLeastUsedAPIKey envEcho autoID = .ok ⟨"k1", 5, 0, 3600⟩ := by decide
  have h3 := SpaceOCRText_decrement_failure envEcho autoID "abc"
    "k1:data:image/jpeg;base64,abc" rfl rfl
    ⟨⟨"auto-id", ⟨"k1", 5, 0, 3600⟩⟩, by decide, by decide⟩
    (fun apiKey h => by rw [hsel] at h; cases h; decide)
    (fun apiKey h => by rw [hsel] at h; cases h; exact Or.inr (Or.inr (Or.inl (by decide))))
  ⟨h1, ⟨h2.1, h2.2.1⟩, ⟨h3.1, h3.2.1⟩⟩

/-! ## Payload normalisation -/

/-- The test `HasPrefix s pre` holds exactly when `s` is `pre` followed by
something. -/
theorem HasPrefix_iff (s pre : String) : HasPrefix s pre = true ↔ ∃ t, s = pre ++ t := by
  unfold HasPrefix
  simp only [Bool.and_eq_true, decide_eq_true_eq, beq_iff_eq]
  constructor
  · rintro ⟨-, htake⟩
    refine ⟨⟨s.data.drop pre.data.length⟩, ?_⟩
    apply String.ext
    rw [String.data_append]
    conv_lhs => rw [← List.take_append_drop pre.data.length s.data]
    rw [htake]
  · rintro ⟨t, rfl⟩
    rw [String.data_append]
    exact ⟨by simp, List.take_left' rfl⟩

theorem HasPrefix_append (pre s : String) : HasPrefix (pre ++ s) pre = true :=
  (HasPrefix_iff _ _).2 ⟨s, rfl⟩

theorem HasPrefix_normalizePayload (s : String) :
    HasPrefix (normalizePayload s) dataURIPrefix = true := by
  unfold normalizePayload
  cases h : HasPrefix s dataURIPrefix
  · simpa using HasPrefix_append dataURIPrefix s
  · simpa using h

theorem normalizePayload_of_HasPrefix {s : String} (h : HasPrefix s dataURIPrefix = true) :
    normalizePayload s = s := by
  simp [normalizePayload, h]

/-- C9: the prefix-ensure step is idempotent: applied to its own result it
returns that result. -/
theorem normalizePayload_idempotent (s : String) :
    normalizePayload (normalizePayload s) = normalizePayload s :=
  normalizePayload_of_HasPrefix (HasPrefix_normalizePayload s)

/-- C10: the normalised payload starts with the data-URI prefix; it is the
payload itself when that already starts with the prefix, and the prefix
followed by the payload otherwise; and it is what every call to the OCR
service made by `SpaceOCRText` receives as its image. -/
theorem normalizePayload_prefixed (s : String) :
    (HasPrefix (normalizePayload s) dataURIPrefix = true ∧
        ∃ t, normalizePayload s = dataURIPrefix ++ t) ∧
      ((∃ t, s = dataURIPrefix ++ t) → normalizePayload s = s) ∧
      ((¬ ∃ t, s = dataURIPrefix ++ t) → normalizePayload s = dataURIPrefix ++ s) ∧
      (∀ env store key image res,
        Event.ocrCall key image res ∈ (SpaceOCRText env store s).trace →
          image = normalizePayload s) := by
  refine ⟨⟨HasPrefix_normalizePayload s, (HasPrefix_iff _ _).1 (HasPrefix_normalizePayload s)⟩,
    ?_, ?_, ?_⟩
  · intro h
    have := (HasPrefix_iff _ _).2 h
    simp [normalizePayload, this]
  · intro h
    have : HasPrefix s dataURIPrefix = false := by
      rw [← Bool.not_eq_true, HasPrefix_iff]; exact h
    simp [normalizePayload, this]
  · intro env store key image res hmem
    rcases SpaceOCRText_cases env store s with
      ⟨cause, -, ho⟩ | ⟨-, e, -, ho⟩ | ⟨-, apiKey, e, -, -, ho⟩ |
      ⟨-, apiKey, text, e, store', -, -, -, ho⟩ | ⟨-, apiKey, text, store', -, -, -, ho⟩ <;>
    · rw [ho] at hmem
      simp at hmem
      try exact hmem.2.1

/-- Witness of C10: the payload "abc" reaches the OCR service with one prefix,
and a payload that carries the prefix reaches it as it is. -/
theorem normalizePayload_prefixed_witness :
    normalizePayload "abc" = "data:image/jpeg;base64,abc" ∧
      normalizePayload "data:image/jpeg;base64,abc" = "data:image/jpeg;base64,abc" ∧
      "data:image/jpeg;base64,abc" = normalizePayload "abc" :=
  ⟨((normalizePayload_prefixed "abc").2.2.1
      (fun h => absurd ((HasPrefix_iff "abc" dataURIPrefix).2 h) (by decide))).trans
      (by decide),
    (normalizePayload_prefixed "data:image/jpeg;base64,abc").2.1 ⟨"abc", by decide⟩,
    (normalizePayload_prefixed "abc").2.2.2 envOK [k1] "k1" "data:image/jpeg;base64,abc"
      (.ok "hello") (by decide)⟩

end OCR
